import Mathlib

/-!
Verification development for the Fusion 360 all-versions exporter
(source: AllVersionsExporter.py).

The Python source is shallowly embedded below.  Pure helpers (the filename
sanitizer, path resolver, counter arithmetic) become Lean functions; the
filesystem and the lazily-opened document handle become explicit state
that is threaded through the traversal functions; Python exceptions become
Except results that carry the state reached at the point of the raise
(side effects performed before a raise persist, as they do on a real
filesystem).  External capabilities (the Fusion document service, the
export manager, the DXF sketch writer, the wall clock used to format the
creation timestamp) are modelled as an oracle record, since the source
treats them as opaque collaborators that may raise.  Logging is omitted:
the source uses it only for diagnostics.
-/

/-! ## Result counter (class Counter) -/

structure Counter where
  saved : Nat := 0
  skipped : Nat := 0
  errored : Nat := 0
deriving DecidableEq, Repr

def Counter.zero : Counter := {}

/-- Pointwise addition, mirroring Counter.__add__ (and __iadd__, which the
source uses as an in-place optimisation with the same semantics). -/
def Counter.add (a b : Counter) : Counter :=
  ⟨a.saved + b.saved, a.skipped + b.skipped, a.errored + b.errored⟩

instance : Add Counter := ⟨Counter.add⟩

/-! ## Export formats (class Format) -/

inductive Format where
  | F3D
  | STEP
  | STL
  | IGES
  | SAT
  | SMT
deriving DecidableEq, Repr

/-- The extension token of each format (the enum member values). -/
def Format.value : Format → String
  | .F3D => "f3d"
  | .STEP => "step"
  | .STL => "stl"
  | .IGES => "igs"
  | .SAT => "sat"
  | .SMT => "smt"

/-! ## Filesystem model

Paths are segment lists (pathlib's slash-joining becomes list append).
The filesystem records regular files (with their text content) and the
set of directories that exist.  opening a file for writing requires its
parent directory to exist, matching POSIX / pathlib behaviour that the
source relies on. -/

abbrev FPath := List String

structure FS where
  files : List (FPath × String)
  dirs : List FPath
deriving DecidableEq, Repr

def FS.read (fs : FS) (p : FPath) : Option String :=
  (fs.files.find? (fun e => e.1 == p)).map (fun e => e.2)

def FS.fileExists (fs : FS) (p : FPath) : Bool :=
  (fs.read p).isSome

def FS.dirExists (fs : FS) (p : FPath) : Bool :=
  decide (p ∈ fs.dirs)

/-- Path.exists(): true for a file or a directory at that path. -/
def FS.existsP (fs : FS) (p : FPath) : Bool :=
  fs.fileExists p || fs.dirExists p

/-- open(p, 'w') / open(p, 'a+") semantics at the state level: set the
content at p (newest entry shadows older ones). -/
def FS.writeFile (fs : FS) (p : FPath) (c : String) : FS :=
  { fs with files := (p, c) :: fs.files }

/-- All nonempty prefixes of a path; mkdir(parents=True) creates them all. -/
def pathPrefixes : FPath → List FPath
  | [] => []
  | s :: rest => [s] :: (pathPrefixes rest).map (fun q => s :: q)

/-- Path.mkdir(exist_ok=True, parents=True) on a directory path. -/
def FS.mkdirParents (fs : FS) (p : FPath) : FS :=
  { fs with dirs := pathPrefixes p ++ fs.dirs }

/-! ## SHA-256 (hashlib.sha256, used by the sanitizer)

A direct implementation over byte lists; 32-bit words are naturals taken
mod 2^32 where overflow matters. -/

def w32 (x : Nat) : Nat := x % 4294967296

def rotr32 (n x : Nat) : Nat := w32 ((x >>> n) ||| (x <<< (32 - n)))

def shaCh (e f g : Nat) : Nat := (e &&& f) ^^^ ((4294967295 ^^^ e) &&& g)

def shaMaj (a b c : Nat) : Nat := (a &&& b) ^^^ (a &&& c) ^^^ (b &&& c)

def bigSigma0 (x : Nat) : Nat := rotr32 2 x ^^^ rotr32 13 x ^^^ rotr32 22 x

def bigSigma1 (x : Nat) : Nat := rotr32 6 x ^^^ rotr32 11 x ^^^ rotr32 25 x

def smallSigma0 (x : Nat) : Nat := rotr32 7 x ^^^ rotr32 18 x ^^^ (x >>> 3)

def smallSigma1 (x : Nat) : Nat := rotr32 17 x ^^^ rotr32 19 x ^^^ (x >>> 10)

def K256 : List Nat :=
  [1116352408, 1899447441, 3049323471, 3921009573, 961987163, 1508970993,
   2453635748, 2870763221, 3624381080, 310598401, 607225278, 1426881987,
   1925078388, 2162078206, 2614888103, 3248222580, 3835390401, 4022224774,
   264347078, 604807628, 770255983, 1249150122, 1555081692, 1996064986,
   2554220882, 2821834349, 2952996808, 3210313671, 3336571891, 3584528711,
   113926993, 338241895, 666307205, 773529912, 1294757372, 1396182291,
   1695183700, 1986661051, 2177026350, 2456956037, 2730485921, 2820302411,
   3259730800, 3345764771, 3516065817, 3600352804, 4094571909, 275423344,
   430227734, 506948616, 659060556, 883997877, 958139571, 1322822218,
   1537002063, 1747873779, 1955562222, 2024104815, 2227730452, 2361852424,
   2428436474, 2756734187, 3204031479, 3329325298]

structure Hash8 where
  a : Nat
  b : Nat
  c : Nat
  d : Nat
  e : Nat
  f : Nat
  g : Nat
  h : Nat
deriving DecidableEq, Repr

def sha256Init : Hash8 :=
  ⟨1779033703, 3144134277, 1013904242, 2773480762,
   1359893119, 2600822924, 528734635, 1541459225⟩

/-- Big-endian 32-bit words of a 64-byte block. -/
def wordsOfBlock : List Nat → List Nat
  | b0 :: b1 :: b2 :: b3 :: rest =>
      ((b0 <<< 24) ||| (b1 <<< 16) ||| (b2 <<< 8) ||| b3) :: wordsOfBlock rest
  | _ => []

/-- One message-schedule extension step; the argument list holds the words
produced so far, newest first. -/
def schedStep (rws : List Nat) : Nat :=
  w32 (rws.getD 15 0 + smallSigma0 (rws.getD 14 0) + rws.getD 6 0 + smallSigma1 (rws.getD 1 0))

def buildSched : Nat → List Nat → List Nat
  | 0, rws => rws
  | n + 1, rws => buildSched n (schedStep rws :: rws)

def sha256Round (st : Hash8) (wk : Nat × Nat) : Hash8 :=
  let t1 := w32 (st.h + bigSigma1 st.e + shaCh st.e st.f st.g + wk.2 + wk.1)
  let t2 := w32 (bigSigma0 st.a + shaMaj st.a st.b st.c)
  ⟨w32 (t1 + t2), st.a, st.b, st.c, w32 (st.d + t1), st.e, st.f, st.g⟩

def compressBlock (st : Hash8) (block : List Nat) : Hash8 :=
  let ws := (buildSched 48 (wordsOfBlock block).reverse).reverse
  let r := (ws.zip K256).foldl sha256Round st
  ⟨w32 (st.a + r.a), w32 (st.b + r.b), w32 (st.c + r.c), w32 (st.d + r.d),
   w32 (st.e + r.e), w32 (st.f + r.f), w32 (st.g + r.g), w32 (st.h + r.h)⟩

def toBlocksFuel : Nat → List Nat → List (List Nat)
  | 0, _ => []
  | n + 1, l => if l = [] then [] else l.take 64 :: toBlocksFuel n (l.drop 64)

def toBlocks (l : List Nat) : List (List Nat) := toBlocksFuel l.length l

/-- SHA-256 padding: 0x80, zeros to 56 mod 64, 64-bit big-endian bit length. -/
def padMessage (msg : List Nat) : List Nat :=
  let l := msg.length
  let bitLen := 8 * l
  msg ++ [0x80] ++ List.replicate ((119 - l % 64) % 64) 0 ++
    [(bitLen >>> 56) &&& 255, (bitLen >>> 48) &&& 255, (bitLen >>> 40) &&& 255,
     (bitLen >>> 32) &&& 255, (bitLen >>> 24) &&& 255, (bitLen >>> 16) &&& 255,
     (bitLen >>> 8) &&& 255, bitLen &&& 255]

/-- The 32 digest bytes, big-endian per word. -/
def serializeHash (st : Hash8) : List Nat :=
  [(st.a >>> 24) &&& 255, (st.a >>> 16) &&& 255, (st.a >>> 8) &&& 255, st.a &&& 255,
   (st.b >>> 24) &&& 255, (st.b >>> 16) &&& 255, (st.b >>> 8) &&& 255, st.b &&& 255,
   (st.c >>> 24) &&& 255, (st.c >>> 16) &&& 255, (st.c >>> 8) &&& 255, st.c &&& 255,
   (st.d >>> 24) &&& 255, (st.d >>> 16) &&& 255, (st.d >>> 8) &&& 255, st.d &&& 255,
   (st.e >>> 24) &&& 255, (st.e >>> 16) &&& 255, (st.e >>> 8) &&& 255, st.e &&& 255,
   (st.f >>> 24) &&& 255, (st.f >>> 16) &&& 255, (st.f >>> 8) &&& 255, st.f &&& 255,
   (st.g >>> 24) &&& 255, (st.g >>> 16) &&& 255, (st.g >>> 8) &&& 255, st.g &&& 255,
   (st.h >>> 24) &&& 255, (st.h >>> 16) &&& 255, (st.h >>> 8) &&& 255, st.h &&& 255]

def sha256Bytes (msg : List Nat) : List Nat :=
  serializeHash ((toBlocks (padMessage msg)).foldl compressBlock sha256Init)

/-- UTF-8 encoding of one character (str.encode()). -/
def utf8Bytes (c : Char) : List Nat :=
  let n := c.toNat
  if n < 128 then [n]
  else if n < 2048 then [192 ||| (n >>> 6), 128 ||| (n &&& 63)]
  else if n < 65536 then
    [224 ||| (n >>> 12), 128 ||| ((n >>> 6) &&& 63), 128 ||| (n &&& 63)]
  else
    [240 ||| (n >>> 18), 128 ||| ((n >>> 12) &&& 63), 128 ||| ((n >>> 6) &&& 63), 128 ||| (n &&& 63)]

def strBytes (s : String) : List Nat :=
  s.data.foldr (fun c acc => utf8Bytes c ++ acc) []

def hexChars : List Char :=
  ("0123456789abcdef" : String).data

def hexDigitChar (n : Nat) : Char := hexChars.getD n '0'

def hexOfBytes : List Nat → List Char
  | [] => []
  | b :: rest => hexDigitChar ((b >>> 4) &&& 15) :: hexDigitChar (b &&& 15) :: hexOfBytes rest

/-- hashlib.sha256(s.encode()).hexdigest() -/
def sha256hex (s : String) : String :=
  String.mk (hexOfBytes (sha256Bytes (strBytes s)))

/-! ## Filename sanitizer (sanitize_filename) -/

/-- The character class of the regular-expression substitution in
sanitize_filename: colon, backslash, slash, star, question mark, the two
angle brackets and the vertical bar. -/
def badChars : List Char :=
  [':', '\\', '/', '*', '?', '<', '>', '|']

/-- One character under re.sub(r'[:\\/*?<>|]', ' ', name). -/
def replaceBad (c : Char) : Char :=
  if c ∈ badChars then ' ' else c

/-- sanitize_filename: replace the bad characters by spaces; if anything
changed, append an underscore and the first 8 hex characters of the
SHA-256 of the original name. -/
def sanitize_filename (name : String) : String :=
  let with_replacement := String.mk (name.data.map replaceBad)
  if name = with_replacement then name
  else with_replacement ++ "_" ++ String.mk ((sha256hex name).data.take 8)

/-! ## Python string helpers used by export_metadata -/

/-- Python str.strip() whitespace test, for the characters this program
can produce. -/
def isPyWs (c : Char) : Bool :=
  c == ' ' || c == '\t' || c == '\n' || c == '\r'

/-- str.strip() -/
def pyStrip (s : String) : String :=
  String.mk (((s.data.dropWhile isPyWs).reverse.dropWhile isPyWs).reverse)

/-- Split file content at newlines.  f.readlines() keeps the trailing
newline on each line and merges a final empty line away, but since every
line is passed through strip() before the membership test the two
conventions agree on that test ("Version: n" is never the empty string). -/
def splitLinesAux : List Char → List Char → List String
  | [], acc => [String.mk acc.reverse]
  | '\n' :: rest, acc => String.mk acc.reverse :: splitLinesAux rest []
  | c :: rest, acc => splitLinesAux rest (c :: acc)

def splitLines (s : String) : List String :=
  splitLinesAux s.data []

/-! ## Data model: components, files, folders, projects

These mirror the read-only views the Fusion API hands to the source:
a document's component tree (component name, owned sketch names, child
occurrences), a DataFile (name, version number, extension, creation
timestamp, description, the root component visible once the document is
opened, and the historical version list), and a DataFolder.  The external
project-catalog capability may raise while enumerating a folder's files
(it is a cloud API); that fallibility is modelled by the dataFilesOk
flag on the folder view. -/

inductive Component where
  | mk (name : String) (sketches : List String) (occurrences : List (String × Component))

def Component.name : Component → String
  | .mk n _ _ => n

def Component.sketches : Component → List String
  | .mk _ s _ => s

def Component.occurrences : Component → List (String × Component)
  | .mk _ _ o => o

inductive DataFile where
  | mk (name : String) (versionNumber : Nat) (fileExtension : String)
       (dateCreated : Nat) (description : String)
       (rootComponent : Component) (versions : List DataFile)

def DataFile.name : DataFile → String
  | .mk n _ _ _ _ _ _ => n

def DataFile.versionNumber : DataFile → Nat
  | .mk _ v _ _ _ _ _ => v

def DataFile.fileExtension : DataFile → String
  | .mk _ _ e _ _ _ _ => e

def DataFile.dateCreated : DataFile → Nat
  | .mk _ _ _ d _ _ _ => d

def DataFile.description : DataFile → String
  | .mk _ _ _ _ d _ _ => d

def DataFile.rootComponent : DataFile → Component
  | .mk _ _ _ _ _ r _ => r

def DataFile.versions : DataFile → List DataFile
  | .mk _ _ _ _ _ _ v => v

inductive DataFolder where
  | mk (name : String) (dataFilesOk : Bool) (dataFiles : List DataFile)
       (dataFolders : List DataFolder)

def DataFolder.name : DataFolder → String
  | .mk n _ _ _ => n

structure Project where
  name : String
  rootFolder : DataFolder

/-! ## Export context (class Ctx)

The app field of the source Ctx is the handle to the external
capabilities; it is modelled separately as the Env oracle below. -/

structure Ctx where
  folder : FPath
  formats : List Format
  projects : List String
  unhide_all : Bool
  save_sketches : Bool
  save_all_versions : Bool

def Ctx.extend (ctx : Ctx) (other : String) : Ctx :=
  { ctx with folder := ctx.folder ++ [other] }

/-! ## External capabilities

Each oracle answers whether a given external request succeeds; a false
answer models the corresponding API call raising.  fmtTime stands for
datetime.fromtimestamp formatting, an external-library function whose
output string the core never inspects. -/

structure Env where
  openOk : String → Nat → Bool
  exportOk : Format → FPath → Bool
  sketchOk : FPath → Bool
  fmtTime : Nat → String

/-- Observable events on the document-source capability, plus the fact of
the close() method being invoked at all (the method is a no-op on a
never-opened handle, but invoking it is still an event we can observe). -/
inductive Ev where
  | capOpen : String → Ev
  | closeInvoked : Ev
  | capClose : Ev
deriving DecidableEq, Repr

/-! ## Lazy document handle (class LazyDocument) -/

structure LazyDocument where
  ctx : Ctx
  file : DataFile
  document : Option Unit

/-- LazyDocument.open: no-op if already opened; otherwise request the
document-source capability to open and activate the document (the
unhide-all walk touches only externally-owned visibility flags and has no
observable effect on the state modelled here).  On a raise the handle is
left unopened, because the assignment to the document field never runs. -/
def LazyDocument.open (env : Env) (d : LazyDocument) (tr : List Ev) :
    Except Unit LazyDocument × List Ev :=
  match d.document with
  | some _ => (.ok d, tr)
  | none =>
      let tr1 := tr ++ [Ev.capOpen d.file.name]
      if env.openOk d.file.name d.file.versionNumber then
        (.ok { d with document := some () }, tr1)
      else
        (.error (), tr1)

/-- LazyDocument.close: return immediately if the document was never
opened; otherwise request the capability to close without saving.  The
document field is not cleared by the source, so the handle still counts
as opened afterwards. -/
def LazyDocument.close (d : LazyDocument) (tr : List Ev) : List Ev :=
  match d.document with
  | none => tr ++ [Ev.closeInvoked]
  | some _ => tr ++ [Ev.closeInvoked, Ev.capClose]

/-! ## Export path resolver (export_filename) -/

def export_filename (ctx : Ctx) (format : Format) (file : DataFile) : FPath :=
  let sanitized := sanitize_filename file.name
  let name := sanitized ++ "_v" ++ Nat.repr file.versionNumber ++ "." ++ format.value
  ctx.folder ++ [sanitized, name]

/-! ## Sketch exporter (export_sketches) -/

/-- Export the sketches directly owned by one component: skip an existing
output, otherwise create the parent directories and ask the DXF
capability to write the file, counting an exception as errored. -/
def exportSketchList (env : Env) (ctx : Ctx) : List String → FS → Counter × FS
  | [], fs => (Counter.zero, fs)
  | sname :: rest, fs =>
      let output_path := ctx.folder ++ [sanitize_filename sname ++ ".dxf"]
      let step : Counter × FS :=
        if fs.existsP output_path then (⟨0, 1, 0⟩, fs)
        else
          let fs1 := fs.mkdirParents output_path.dropLast
          if env.sketchOk output_path then (⟨1, 0, 0⟩, fs1.writeFile output_path (""))
          else (⟨0, 0, 1⟩, fs1)
      let rest1 := exportSketchList env ctx rest step.2
      (step.1 + rest1.1, rest1.2)

mutual

def export_sketches (env : Env) (ctx : Ctx) : Component → FS → Counter × FS
  | Component.mk _ sketches occs, fs =>
      let s := exportSketchList env ctx sketches fs
      let o := exportOccurrences env ctx occs s.2
      (s.1 + o.1, o.2)

def exportOccurrences (env : Env) (ctx : Ctx) :
    List (String × Component) → FS → Counter × FS
  | [], fs => (Counter.zero, fs)
  | (oname, comp) :: rest, fs =>
      let c := export_sketches env (ctx.extend (sanitize_filename oname)) comp fs
      let r := exportOccurrences env ctx rest c.2
      (c.1 + r.1, r.2)

end

/-! ## Multi-format file exporter (export_file) -/

/-- The content the external export manager writes; its bytes are opaque
to the core, only the existence of the output file matters. -/
def exportedContent : String := ""

/-- The if/elif dispatch to the per-format export-options constructor of
the export manager; the final branch raises on an unknown format, which
is unreachable for the closed enumeration. -/
def createExportOptions (format : Format) (output_path : FPath) :
    Except Unit (Format × FPath) :=
  if format = Format.F3D then .ok (Format.F3D, output_path)
  else if format = Format.STL then .ok (Format.STL, output_path)
  else if format = Format.STEP then .ok (Format.STEP, output_path)
  else if format = Format.IGES then .ok (Format.IGES, output_path)
  else if format = Format.SAT then .ok (Format.SAT, output_path)
  else if format = Format.SMT then .ok (Format.SMT, output_path)
  else .error ()

/-- export_file: skip (without opening the document) if the output path
already exists; otherwise open the handle, create the parent directories,
build the format-specific options and execute the export.  Nothing is
caught here: an error result propagates to the caller together with the
state already reached. -/
def export_file (env : Env) (ctx : Ctx) (format : Format) (file : DataFile)
    (doc : LazyDocument) (fs : FS) (tr : List Ev) :
    Except Unit Counter × LazyDocument × FS × List Ev :=
  let output_path := export_filename ctx format file
  if fs.existsP output_path then (.ok ⟨0, 1, 0⟩, doc, fs, tr)
  else
    match doc.open env tr with
    | (.error e, tr1) => (.error e, doc, fs, tr1)
    | (.ok doc1, tr1) =>
        let fs1 := fs.mkdirParents output_path.dropLast
        match createExportOptions format output_path with
        | .error e => (.error e, doc1, fs1, tr1)
        | .ok _ =>
            if env.exportOk format output_path then
              (.ok ⟨1, 0, 0⟩, doc1, fs1.writeFile output_path exportedContent, tr1)
            else
              (.error (), doc1, fs1, tr1)

/-! ## Metadata ledger (export_metadata) -/

/-- The version line, as formatted by the source and passed through
str.strip() before the membership test. -/
def versionLine (n : Nat) : String :=
  pyStrip ("Version: " ++ Nat.repr n)

/-- The block appended for an unrecorded version: newline-join of the
version line, the created line and the description line (which carries
its own trailing newline). -/
def metadataBlock (env : Env) (file : DataFile) : String :=
  "Version: " ++ Nat.repr file.versionNumber ++ "\n" ++
    "\tcreated: " ++ env.fmtTime file.dateCreated ++ "\n" ++
    "\tdescription: " ++ file.description ++ "\n"

/-- export_metadata: create the ledger empty if missing (counting the
creation as saved) — creation opens the path for writing and therefore
raises when the parent directory does not exist; read it back; return the
creation counter unchanged if the version line is present; otherwise
append the version block, still returning the creation counter. -/
def export_metadata (env : Env) (ctx : Ctx) (file : DataFile) (fs : FS) :
    Except Unit Counter × FS :=
  let sanitized := sanitize_filename file.name
  let name := sanitized ++ "_metadata.txt"
  let output_path := ctx.folder ++ [sanitized, name]
  let creation : Except Unit (Counter × FS) :=
    if fs.existsP output_path then .ok (Counter.zero, fs)
    else if fs.dirExists output_path.dropLast then
      .ok (⟨1, 0, 0⟩, fs.writeFile output_path (""))
    else .error ()
  match creation with
  | .error e => (.error e, fs)
  | .ok (counter, fs1) =>
      match fs1.read output_path with
      | none => (.error (), fs1)
      | some content =>
          if ((splitLines content).map pyStrip).contains (versionLine file.versionNumber) then
            (.ok counter, fs1)
          else
            (.ok counter, fs1.writeFile output_path (content ++ metadataBlock env file))

/-! ## Tree walker (visit_file, visit_file_wrapper, visit_folder, main) -/

/-- The per-format loop of visit_file: each export_file call is wrapped
in try/except, an exception becoming errored(1) while the loop continues
with the next format. -/
def visitFormats (env : Env) (ctx : Ctx) (file : DataFile) :
    List Format → LazyDocument → FS → List Ev → Counter × LazyDocument × FS × List Ev
  | [], doc, fs, tr => (Counter.zero, doc, fs, tr)
  | format :: rest, doc, fs, tr =>
      match export_file env ctx format file doc fs tr with
      | (.ok c, doc1, fs1, tr1) =>
          let r := visitFormats env ctx file rest doc1 fs1 tr1
          (c + r.1, r.2)
      | (.error _, doc1, fs1, tr1) =>
          let r := visitFormats env ctx file rest doc1 fs1 tr1
          (⟨0, 0, 1⟩ + r.1, r.2)

/-- The tail of visit_file shared by both save_sketches branches: run the
format loop, then the metadata step under its own try/except, then close
the handle and return the merged counter. -/
def visitFileRest (env : Env) (ctx : Ctx) (file : DataFile) (counter : Counter)
    (doc : LazyDocument) (fs : FS) (tr : List Ev) :
    Except Unit Counter × FS × List Ev :=
  let f := visitFormats env ctx file ctx.formats doc fs tr
  let doc1 := f.2.1
  let m : Counter × FS :=
    match export_metadata env ctx file f.2.2.1 with
    | (.ok c, fs1) => (c, fs1)
    | (.error _, fs1) => (⟨0, 0, 1⟩, fs1)
  let tr1 := doc1.close f.2.2.2
  (.ok (counter + f.1 + m.1), m.2, tr1)

/-- visit_file: skip a non-f3d file outright; otherwise construct a fresh
handle, optionally (save_sketches) open it now and run the sketch
exporter on the root component — this phase is not guarded, so a raise
here escapes the call before close() is ever invoked — then run the
format loop and the metadata step (both guarded) and close the handle. -/
def visit_file (env : Env) (ctx : Ctx) (file : DataFile) (fs : FS) (tr : List Ev) :
    Except Unit Counter × FS × List Ev :=
  if file.fileExtension ≠ "f3d" then (.ok ⟨0, 1, 0⟩, fs, tr)
  else
    let doc : LazyDocument := ⟨ctx, file, none⟩
    if ctx.save_sketches then
      match doc.open env tr with
      | (.error e, tr1) => (.error e, fs, tr1)
      | (.ok doc1, tr1) =>
          let s := export_sketches env
            (ctx.extend (sanitize_filename file.rootComponent.name))
            file.rootComponent fs
          visitFileRest env ctx file s.1 doc1 s.2 tr1
    else
      visitFileRest env ctx file Counter.zero doc fs tr

/-- The all-versions loop of visit_file_wrapper; nothing is caught here,
so an exception on one version propagates (with the state reached). -/
def visitVersions (env : Env) (ctx : Ctx) :
    List DataFile → FS → List Ev → Except Unit Counter × FS × List Ev
  | [], fs, tr => (.ok Counter.zero, fs, tr)
  | v :: rest, fs, tr =>
      match visit_file env ctx v fs tr with
      | (.ok c, fs1, tr1) =>
          match visitVersions env ctx rest fs1 tr1 with
          | (.ok c2, fs2, tr2) => (.ok (c + c2), fs2, tr2)
          | (.error e, fs2, tr2) => (.error e, fs2, tr2)
      | (.error e, fs1, tr1) => (.error e, fs1, tr1)

/-- visit_file_wrapper: visit every historical version when
save_all_versions is set, else just the current one. -/
def visit_file_wrapper (env : Env) (ctx : Ctx) (file : DataFile) (fs : FS) (tr : List Ev) :
    Except Unit Counter × FS × List Ev :=
  if ctx.save_all_versions then visitVersions env ctx file.versions fs tr
  else visit_file env ctx file fs tr

/-- The per-file loop of visit_folder: each visit_file_wrapper call is
wrapped in try/except, an exception becoming errored(1) while the loop
continues with the next file.  This loop is therefore total. -/
def visitFiles (env : Env) (ctx : Ctx) :
    List DataFile → FS → List Ev → Counter × FS × List Ev
  | [], fs, tr => (Counter.zero, fs, tr)
  | f :: rest, fs, tr =>
      match visit_file_wrapper env ctx f fs tr with
      | (.ok c, fs1, tr1) =>
          let r := visitFiles env ctx rest fs1 tr1
          (c + r.1, r.2)
      | (.error _, fs1, tr1) =>
          let r := visitFiles env ctx rest fs1 tr1
          (⟨0, 0, 1⟩ + r.1, r.2)

mutual

/-- visit_folder: extend the context by the sanitized folder name, visit
every file (exceptions caught per file), then recurse into every
sub-folder WITHOUT a try/except around the recursion, so an exception
escaping a sub-folder aborts this level too.  Enumerating dataFiles is a
cloud-API property access and may itself raise (dataFilesOk = false). -/
def visit_folder (env : Env) (ctx : Ctx) :
    DataFolder → FS → List Ev → Except Unit Counter × FS × List Ev
  | DataFolder.mk nm filesOk files subs, fs, tr =>
      let new_ctx := ctx.extend (sanitize_filename nm)
      if filesOk then
        let r := visitFiles env new_ctx files fs tr
        match visitSubfolders env new_ctx subs r.2.1 r.2.2 with
        | (.ok c2, fs2, tr2) => (.ok (r.1 + c2), fs2, tr2)
        | (.error e, fs2, tr2) => (.error e, fs2, tr2)
      else (.error (), fs, tr)

/-- The sub-folder loop of visit_folder (errors propagate). -/
def visitSubfolders (env : Env) (ctx : Ctx) :
    List DataFolder → FS → List Ev → Except Unit Counter × FS × List Ev
  | [], fs, tr => (.ok Counter.zero, fs, tr)
  | sub :: rest, fs, tr =>
      match visit_folder env ctx sub fs tr with
      | (.ok c, fs1, tr1) =>
          match visitSubfolders env ctx rest fs1 tr1 with
          | (.ok c2, fs2, tr2) => (.ok (c + c2), fs2, tr2)
          | (.error e, fs2, tr2) => (.error e, fs2, tr2)
      | (.error e, fs1, tr1) => (.error e, fs1, tr1)

end

/-- init_directory: mkdir(exist_ok=True) without parents — raises when
the parent of the output root is missing (a root-level output directory
has no missing parent). -/
def init_directory (fs : FS) (p : FPath) : Except Unit FS :=
  if p.dropLast = [] ∨ fs.dirExists p.dropLast then .ok { fs with dirs := p :: fs.dirs }
  else .error ()

/-- The project loop of main (errors propagate). -/
def visitProjects (env : Env) (ctx : Ctx) :
    List Project → FS → List Ev → Except Unit Counter × FS × List Ev
  | [], fs, tr => (.ok Counter.zero, fs, tr)
  | p :: rest, fs, tr =>
      if p.name ∈ ctx.projects then
        match visit_folder env ctx p.rootFolder fs tr with
        | (.ok c, fs1, tr1) =>
            match visitProjects env ctx rest fs1 tr1 with
            | (.ok c2, fs2, tr2) => (.ok (c + c2), fs2, tr2)
            | (.error e, fs2, tr2) => (.error e, fs2, tr2)
        | (.error e, fs1, tr1) => (.error e, fs1, tr1)
      else visitProjects env ctx rest fs tr

namespace AVE

/-- main: ensure the output directory exists (logging initialisation is
diagnostic only and omitted), then walk every selected project of the
catalog and merge the results.  Namespaced because a bare main is
reserved by Lean. -/
def main (env : Env) (ctx : Ctx) (catalog : List Project) (fs : FS) (tr : List Ev) :
    Except Unit Counter × FS × List Ev :=
  match init_directory fs ctx.folder with
  | .error e => (.error e, fs, tr)
  | .ok fs1 => visitProjects env ctx catalog fs1 tr

end AVE

/-! ## Concrete fixtures

An all-succeeding oracle, an oracle whose document-open always raises, an
oracle that fails to open exactly the file named Bad, and the source tree
of the two-format scenario (project P, folder F, file Model, extension
f3d, version 1). -/

def envOk : Env := ⟨fun _ _ => true, fun _ _ => true, fun _ => true, fun t => Nat.repr t⟩

def envBadOpen : Env := ⟨fun _ _ => false, fun _ _ => true, fun _ => true, fun t => Nat.repr t⟩

def envSel : Env := ⟨fun n _ => !(n == ("Bad" : String)), fun _ _ => true, fun _ => true, fun t => Nat.repr t⟩

def rootC : Component := Component.mk ("Root") [] []

def fileModel : DataFile := DataFile.mk ("Model") 1 ("f3d") 0 ("first") rootC []

def ctx0 : Ctx := ⟨[("out" : String)], [Format.F3D, Format.STEP], [("P" : String)], false, false, false⟩

/-- A context with save_sketches enabled and one format. -/
def ctxSk : Ctx := ⟨[("out" : String)], [Format.F3D], [("P" : String)], false, true, false⟩

/-- A context with no formats selected and all flags off. -/
def ctxNoFmt : Ctx := ⟨[("out" : String)], [], [("P" : String)], false, false, false⟩

def folderF : DataFolder := DataFolder.mk ("F") true [fileModel] []

def folderP : DataFolder := DataFolder.mk ("P") true [] [folderF]

def projP : Project := ⟨("P"), folderP⟩

def fsEmpty : FS := ⟨[], []⟩

/-- First run of the two-format scenario. -/
def run1 : Except Unit Counter × FS × List Ev := AVE.main envOk ctx0 [projP] fsEmpty []

/-- Second run over the filesystem the first run left behind. -/
def run2 : Except Unit Counter × FS × List Ev := AVE.main envOk ctx0 [projP] run1.2.1 []

def fAlpha : DataFile := DataFile.mk ("Alpha") 1 ("f3d") 0 ("a") rootC []

def fBad : DataFile := DataFile.mk ("Bad") 1 ("f3d") 0 ("b") rootC []

def fGamma : DataFile := DataFile.mk ("Gamma") 1 ("f3d") 0 ("c") rootC []

/-- A folder with three files whose middle file fails to open. -/
def folder3 : DataFolder := DataFolder.mk ("F") true [fAlpha, fBad, fGamma] []

/-- A folder whose first sub-folder raises while enumerating its files and
whose second sub-folder holds a healthy exportable file. -/
def folderCex : DataFolder :=
  DataFolder.mk ("P") true []
    [DataFolder.mk ("B") false [] [], DataFolder.mk ("G") true [fAlpha] []]

deriving instance DecidableEq for Except

/-! ## Basic lemmas: counters and the filesystem model -/

theorem counter_add_def (a b : Counter) :
    a + b = ⟨a.saved + b.saved, a.skipped + b.skipped, a.errored + b.errored⟩ := rfl

theorem counter_zero_add (a : Counter) : Counter.zero + a = a := by
  cases a
  simp [counter_add_def, Counter.zero]

theorem counter_add_zero (a : Counter) : a + Counter.zero = a := by
  cases a
  simp [counter_add_def, Counter.zero]

theorem fileExists_writeFile (fs : FS) (p q : FPath) (c : String) :
    (fs.writeFile p c).fileExists q = ((p == q) || fs.fileExists q) := by
  cases h : p == q
  · simp [FS.fileExists, FS.read, FS.writeFile, List.find?, h]
  · simp [FS.fileExists, FS.read, FS.writeFile, List.find?, h]

theorem dirExists_writeFile (fs : FS) (p q : FPath) (c : String) :
    (fs.writeFile p c).dirExists q = fs.dirExists q := rfl

theorem fileExists_mkdirParents (fs : FS) (p q : FPath) :
    (fs.mkdirParents p).fileExists q = fs.fileExists q := rfl

theorem dirExists_mkdirParents (fs : FS) (p q : FPath) :
    (fs.mkdirParents p).dirExists q
      = (decide (q ∈ pathPrefixes p) || fs.dirExists q) := by
  by_cases h : q ∈ pathPrefixes p <;>
    by_cases h2 : q ∈ fs.dirs <;>
      simp [FS.dirExists, FS.mkdirParents, List.mem_append, h, h2]

theorem existsP_eq (fs : FS) (p : FPath) :
    fs.existsP p = (fs.fileExists p || fs.dirExists p) := rfl

/-- Every member of pathPrefixes p is no longer than p. -/
theorem pathPrefixes_length {q p : FPath} (h : q ∈ pathPrefixes p) :
    q.length ≤ p.length := by
  induction p generalizing q with
  | nil => simp [pathPrefixes] at h
  | cons s rest ih =>
      simp only [pathPrefixes, List.mem_cons, List.mem_map] at h
      rcases h with h | ⟨r, hr, rfl⟩
      · simp [h]
      · simpa using Nat.succ_le_succ (ih hr)

/-- A nonempty path is among its own prefixes. -/
theorem self_mem_pathPrefixes {p : FPath} (h : p ≠ []) : p ∈ pathPrefixes p := by
  induction p with
  | nil => exact absurd rfl h
  | cons s rest ih =>
      cases rest with
      | nil => simp [pathPrefixes]
      | cons t r2 =>
          have hm : t :: r2 ∈ pathPrefixes (t :: r2) := ih (by simp)
          have hmap : s :: (t :: r2) ∈ (pathPrefixes (t :: r2)).map (fun q => s :: q) :=
            List.mem_map.2 ⟨t :: r2, hm, rfl⟩
          show s :: (t :: r2) ∈ [s] :: (pathPrefixes (t :: r2)).map (fun q => s :: q)
          exact List.mem_cons_of_mem _ hmap

/-- State growth order on filesystems: everything that exists keeps
existing. -/
def FSle (a b : FS) : Prop :=
  (∀ p, a.fileExists p = true → b.fileExists p = true) ∧
  (∀ p, a.dirExists p = true → b.dirExists p = true)

theorem FSle.rfl (a : FS) : FSle a a := ⟨fun _ h => h, fun _ h => h⟩

theorem FSle.trans {a b c : FS} (h1 : FSle a b) (h2 : FSle b c) : FSle a c :=
  ⟨fun p h => h2.1 p (h1.1 p h), fun p h => h2.2 p (h1.2 p h)⟩

theorem FSle.existsP {a b : FS} (h : FSle a b) (p : FPath)
    (hp : a.existsP p = true) : b.existsP p = true := by
  simp only [existsP_eq, Bool.or_eq_true] at hp ⊢
  rcases hp with hp | hp
  · exact Or.inl (h.1 p hp)
  · exact Or.inr (h.2 p hp)

theorem FSle_writeFile (fs : FS) (p : FPath) (c : String) :
    FSle fs (fs.writeFile p c) := by
  refine ⟨fun q h => ?_, fun q h => h⟩
  rw [fileExists_writeFile]
  simp [h]

theorem FSle_mkdirParents (fs : FS) (p : FPath) :
    FSle fs (fs.mkdirParents p) := by
  refine ⟨fun q h => h, fun q h => ?_⟩
  rw [dirExists_mkdirParents]
  simp [h]

/-! ## Path disambiguation lemmas

Distinct formats give distinct output filenames, and the metadata ledger
never collides with a format output: these underpin the idempotent-re-run
analysis. -/

theorem string_eq_of_data (a b : String) (h : a.data = b.data) : a = b := by
  cases a
  cases b
  exact congrArg String.mk h

theorem format_value_ne {a b : Format} (h : a ≠ b) : a.value ≠ b.value := by
  cases a <;> cases b <;> first | exact absurd rfl h | decide

/-- The bare filename of a format export. -/
def exportName (file : DataFile) (format : Format) : String :=
  sanitize_filename file.name ++ "_v" ++ Nat.repr file.versionNumber ++ "." ++ format.value

theorem export_filename_eq (ctx : Ctx) (format : Format) (file : DataFile) :
    export_filename ctx format file
      = ctx.folder ++ [sanitize_filename file.name, exportName file format] := rfl

/-- The ledger path used by export_metadata. -/
def metadataPath (ctx : Ctx) (file : DataFile) : FPath :=
  ctx.folder ++
    [sanitize_filename file.name, sanitize_filename file.name ++ "_metadata.txt"]

theorem exportName_ne {file : DataFile} {a b : Format} (h : a ≠ b) :
    exportName file a ≠ exportName file b := by
  intro he
  apply format_value_ne h
  apply string_eq_of_data
  have hd := congrArg String.data he
  simp only [exportName, String.data_append, List.append_assoc] at hd
  exact List.append_cancel_left (List.append_cancel_left
    (List.append_cancel_left (List.append_cancel_left hd)))

theorem metadataName_ne_exportName (file : DataFile) (format : Format) :
    sanitize_filename file.name ++ "_metadata.txt" ≠ exportName file format := by
  intro he
  have hd := congrArg String.data he
  simp only [exportName, String.data_append, List.append_assoc] at hd
  have h2 := List.append_cancel_left hd
  have hL := congrArg (fun l => l.get? 1) h2
  simp only [List.cons_append, List.nil_append, List.get?] at hL
  exact absurd hL (by decide)

theorem export_filename_ne {ctx : Ctx} {file : DataFile} {a b : Format} (h : a ≠ b) :
    export_filename ctx a file ≠ export_filename ctx b file := by
  intro he
  apply exportName_ne h
  rw [export_filename_eq, export_filename_eq] at he
  have h2 := List.append_cancel_left he
  simpa using h2

theorem metadataPath_ne_export (ctx : Ctx) (file : DataFile) (format : Format) :
    metadataPath ctx file ≠ export_filename ctx format file := by
  intro he
  apply metadataName_ne_exportName file format
  rw [metadataPath, export_filename_eq] at he
  have h2 := List.append_cancel_left he
  simpa using h2

theorem export_filename_dropLast (ctx : Ctx) (format : Format) (file : DataFile) :
    (export_filename ctx format file).dropLast
      = ctx.folder ++ [sanitize_filename file.name] := by
  rw [export_filename_eq]
  rw [show ctx.folder ++ [sanitize_filename file.name, exportName file format]
        = (ctx.folder ++ [sanitize_filename file.name]) ++ [exportName file format] by simp]
  exact List.dropLast_concat ..

theorem metadataPath_dropLast (ctx : Ctx) (file : DataFile) :
    (metadataPath ctx file).dropLast = ctx.folder ++ [sanitize_filename file.name] := by
  rw [metadataPath]
  rw [show ctx.folder ++ [sanitize_filename file.name,
        sanitize_filename file.name ++ "_metadata.txt"]
        = (ctx.folder ++ [sanitize_filename file.name])
            ++ [sanitize_filename file.name ++ "_metadata.txt"] by simp]
  exact List.dropLast_concat ..

theorem export_filename_length (ctx : Ctx) (format : Format) (file : DataFile) :
    (export_filename ctx format file).length = ctx.folder.length + 2 := by
  simp [export_filename_eq]

theorem metadataPath_length (ctx : Ctx) (file : DataFile) :
    (metadataPath ctx file).length = ctx.folder.length + 2 := by
  simp [metadataPath]

/-! ## Case lemmas for the document handle and export_file -/

theorem open_of_some (env : Env) (d : LazyDocument) (tr : List Ev)
    (h : d.document = some ()) : d.open env tr = (.ok d, tr) := by
  unfold LazyDocument.open
  rw [h]

theorem open_of_none_ok (env : Env) (d : LazyDocument) (tr : List Ev)
    (h : d.document = none) (ho : env.openOk d.file.name d.file.versionNumber = true) :
    d.open env tr = (.ok { d with document := some () }, tr ++ [Ev.capOpen d.file.name]) := by
  unfold LazyDocument.open
  rw [h]
  simp [ho]

theorem open_of_none_raise (env : Env) (d : LazyDocument) (tr : List Ev)
    (h : d.document = none) (ho : env.openOk d.file.name d.file.versionNumber = false) :
    d.open env tr = (.error (), tr ++ [Ev.capOpen d.file.name]) := by
  unfold LazyDocument.open
  rw [h]
  simp [ho]

theorem open_always_ok (env : Env) (d : LazyDocument) (tr : List Ev)
    (ho : env.openOk d.file.name d.file.versionNumber = true) :
    ∃ d1 tr1, d.open env tr = (.ok d1, tr1) := by
  cases h : d.document with
  | none => exact ⟨_, _, open_of_none_ok env d tr h ho⟩
  | some u => cases u; exact ⟨_, _, open_of_some env d tr h⟩

theorem createExportOptions_ok (format : Format) (p : FPath) :
    createExportOptions format p = .ok (format, p) := by
  cases format <;> simp [createExportOptions]

theorem export_file_skip (env : Env) (ctx : Ctx) (format : Format) (file : DataFile)
    (doc : LazyDocument) (fs : FS) (tr : List Ev)
    (hex : fs.existsP (export_filename ctx format file) = true) :
    export_file env ctx format file doc fs tr = (.ok ⟨0, 1, 0⟩, doc, fs, tr) := by
  unfold export_file
  simp [hex]

theorem export_file_open_raise (env : Env) (ctx : Ctx) (format : Format) (file : DataFile)
    (doc : LazyDocument) (fs : FS) (tr tr1 : List Ev)
    (hex : fs.existsP (export_filename ctx format file) = false)
    (hopen : doc.open env tr = (.error (), tr1)) :
    export_file env ctx format file doc fs tr = (.error (), doc, fs, tr1) := by
  unfold export_file
  simp only [hex, Bool.false_eq_true, if_false]
  rw [hopen]

theorem export_file_success (env : Env) (ctx : Ctx) (format : Format) (file : DataFile)
    (doc doc1 : LazyDocument) (fs : FS) (tr tr1 : List Ev)
    (hex : fs.existsP (export_filename ctx format file) = false)
    (hopen : doc.open env tr = (.ok doc1, tr1))
    (hexp : env.exportOk format (export_filename ctx format file) = true) :
    export_file env ctx format file doc fs tr
      = (.ok ⟨1, 0, 0⟩, doc1,
         (fs.mkdirParents (ctx.folder ++ [sanitize_filename file.name])).writeFile
           (export_filename ctx format file) exportedContent, tr1) := by
  unfold export_file
  simp only [hex, Bool.false_eq_true, if_false]
  rw [hopen, createExportOptions_ok, export_filename_dropLast]
  simp [hexp]

theorem export_file_export_raise (env : Env) (ctx : Ctx) (format : Format) (file : DataFile)
    (doc doc1 : LazyDocument) (fs : FS) (tr tr1 : List Ev)
    (hex : fs.existsP (export_filename ctx format file) = false)
    (hopen : doc.open env tr = (.ok doc1, tr1))
    (hexp : env.exportOk format (export_filename ctx format file) = false) :
    export_file env ctx format file doc fs tr
      = (.error (), doc1,
         fs.mkdirParents (ctx.folder ++ [sanitize_filename file.name]), tr1) := by
  unfold export_file
  simp only [hex, Bool.false_eq_true, if_false]
  rw [hopen, createExportOptions_ok, export_filename_dropLast]
  simp [hexp]

/-! ## Preservation lemmas for export_file and the format loop -/

theorem path_beq_false {p q : FPath} (h : p ≠ q) : (p == q) = false := by
  simp [h]

theorem fileExists_writeFile_ne (fs : FS) (p q : FPath) (c : String) (h : p ≠ q) :
    (fs.writeFile p c).fileExists q = fs.fileExists q := by
  rw [fileExists_writeFile]
  simp [path_beq_false h]

theorem dirExists_mkdirParents_long (fs : FS) (p q : FPath) (hlen : p.length < q.length) :
    (fs.mkdirParents p).dirExists q = fs.dirExists q := by
  rw [dirExists_mkdirParents]
  have hnm : q ∉ pathPrefixes p := fun hm => absurd (pathPrefixes_length hm) (by omega)
  simp [hnm]

/-- The filesystem after export_file is the input filesystem, or the input
with the per-file directory tree created, or that plus the output file. -/
theorem export_file_fs (env : Env) (ctx : Ctx) (format : Format) (file : DataFile)
    (doc : LazyDocument) (fs : FS) (tr : List Ev) :
    (export_file env ctx format file doc fs tr).2.2.1 = fs
  ∨ (export_file env ctx format file doc fs tr).2.2.1
      = fs.mkdirParents (ctx.folder ++ [sanitize_filename file.name])
  ∨ (export_file env ctx format file doc fs tr).2.2.1
      = (fs.mkdirParents (ctx.folder ++ [sanitize_filename file.name])).writeFile
          (export_filename ctx format file) exportedContent := by
  by_cases hex : fs.existsP (export_filename ctx format file) = true
  · rw [export_file_skip env ctx format file doc fs tr hex]
    exact Or.inl rfl
  · rw [Bool.not_eq_true] at hex
    rcases hopen : LazyDocument.open env doc tr with ⟨r, tr1⟩
    cases r with
    | error e =>
        cases e
        rw [export_file_open_raise env ctx format file doc fs tr tr1 hex hopen]
        exact Or.inl rfl
    | ok doc1 =>
        by_cases hexp : env.exportOk format (export_filename ctx format file) = true
        · rw [export_file_success env ctx format file doc doc1 fs tr tr1 hex hopen hexp]
          exact Or.inr (Or.inr rfl)
        · rw [Bool.not_eq_true] at hexp
          rw [export_file_export_raise env ctx format file doc doc1 fs tr tr1 hex hopen hexp]
          exact Or.inr (Or.inl rfl)

theorem export_file_le (env : Env) (ctx : Ctx) (format : Format) (file : DataFile)
    (doc : LazyDocument) (fs : FS) (tr : List Ev) :
    FSle fs (export_file env ctx format file doc fs tr).2.2.1 := by
  rcases export_file_fs env ctx format file doc fs tr with h | h | h <;> rw [h]
  · exact FSle.rfl fs
  · exact FSle_mkdirParents ..
  · exact FSle.trans (FSle_mkdirParents ..) (FSle_writeFile ..)

theorem export_file_fileExists_preserve (env : Env) (ctx : Ctx) (format : Format)
    (file : DataFile) (doc : LazyDocument) (fs : FS) (tr : List Ev) (q : FPath)
    (hq : q ≠ export_filename ctx format file) :
    (export_file env ctx format file doc fs tr).2.2.1.fileExists q = fs.fileExists q := by
  rcases export_file_fs env ctx format file doc fs tr with h | h | h <;> rw [h]
  · rfl
  · rw [fileExists_writeFile_ne _ _ _ _ (Ne.symm hq)]
    rfl

theorem export_file_dirExists_preserve (env : Env) (ctx : Ctx) (format : Format)
    (file : DataFile) (doc : LazyDocument) (fs : FS) (tr : List Ev) (q : FPath)
    (hlen : ctx.folder.length + 1 < q.length) :
    (export_file env ctx format file doc fs tr).2.2.1.dirExists q = fs.dirExists q := by
  have hlen2 : (ctx.folder ++ [sanitize_filename file.name]).length < q.length := by
    simpa using hlen
  rcases export_file_fs env ctx format file doc fs tr with h | h | h <;> rw [h]
  · exact dirExists_mkdirParents_long fs _ q hlen2
  · rw [dirExists_writeFile]
    exact dirExists_mkdirParents_long fs _ q hlen2

theorem export_file_existsP_preserve (env : Env) (ctx : Ctx) (format : Format)
    (file : DataFile) (doc : LazyDocument) (fs : FS) (tr : List Ev) (q : FPath)
    (hq : q ≠ export_filename ctx format file)
    (hlen : ctx.folder.length + 1 < q.length) :
    (export_file env ctx format file doc fs tr).2.2.1.existsP q = fs.existsP q := by
  rw [existsP_eq, existsP_eq,
    export_file_fileExists_preserve env ctx format file doc fs tr q hq,
    export_file_dirExists_preserve env ctx format file doc fs tr q hlen]

/-- open never changes which source file the handle is bound to. -/
theorem open_ok_file {env : Env} {d d1 : LazyDocument} {tr tr1 : List Ev}
    (h : d.open env tr = (.ok d1, tr1)) : d1.file = d.file := by
  unfold LazyDocument.open at h
  cases hd : d.document with
  | some u =>
      rw [hd] at h
      cases h
      rfl
  | none =>
      rw [hd] at h
      by_cases ho : env.openOk d.file.name d.file.versionNumber = true
      · simp only [ho, if_true] at h
        cases h
        rfl
      · rw [Bool.not_eq_true] at ho
        simp only [ho] at h
        cases h

theorem counter_skip_step (n : Nat) : (⟨0, 1, 0⟩ : Counter) + ⟨0, n, 0⟩ = ⟨0, n + 1, 0⟩ := by
  rw [counter_add_def]
  simp [Nat.add_comm]

theorem counter_saved_step (n : Nat) : (⟨1, 0, 0⟩ : Counter) + ⟨n, 0, 0⟩ = ⟨n + 1, 0, 0⟩ := by
  rw [counter_add_def]
  simp [Nat.add_comm]

/-- Second-run behaviour of the format loop: when every output path
already exists, every format is skipped, the document is never opened and
the state is untouched. -/
theorem visitFormats_all_skip (env : Env) (ctx : Ctx) (file : DataFile)
    (formats : List Format) : ∀ (doc : LazyDocument) (fs : FS) (tr : List Ev),
    (∀ fm ∈ formats, fs.existsP (export_filename ctx fm file) = true) →
    visitFormats env ctx file formats doc fs tr = (⟨0, formats.length, 0⟩, doc, fs, tr) := by
  induction formats with
  | nil =>
      intro doc fs tr _
      simp [visitFormats]
      rfl
  | cons fm rest ih =>
      intro doc fs tr h
      have hh := h fm (by simp)
      simp only [visitFormats]
      rw [export_file_skip env ctx fm file doc fs tr hh]
      simp only []
      rw [ih doc fs tr (fun g hg => h g (by simp [hg]))]
      simp only [List.length_cons]
      rw [show ((⟨0, 1, 0⟩ : Counter) + ⟨0, rest.length, 0⟩, doc, fs, tr)
            = ((⟨0, rest.length + 1, 0⟩ : Counter), doc, fs, tr)
          from by rw [counter_skip_step]]

/-- First-run behaviour of the format loop on a fresh filesystem with an
all-succeeding oracle: every format is exported, the per-file directory
exists afterwards, and the (distinct) metadata path is still untouched. -/
theorem visitFormats_first (env : Env) (ctx : Ctx) (file : DataFile)
    (formats : List Format) : ∀ (doc : LazyDocument) (fs : FS) (tr : List Ev),
    doc.file = file →
    env.openOk file.name file.versionNumber = true →
    (∀ fm, env.exportOk fm (export_filename ctx fm file) = true) →
    formats.Nodup →
    (∀ fm ∈ formats, fs.existsP (export_filename ctx fm file) = false) →
    fs.existsP (metadataPath ctx file) = false →
    (visitFormats env ctx file formats doc fs tr).1 = ⟨formats.length, 0, 0⟩
    ∧ FSle fs (visitFormats env ctx file formats doc fs tr).2.2.1
    ∧ (∀ fm ∈ formats,
        (visitFormats env ctx file formats doc fs tr).2.2.1.fileExists
          (export_filename ctx fm file) = true)
    ∧ (formats ≠ [] →
        (visitFormats env ctx file formats doc fs tr).2.2.1.dirExists
          (ctx.folder ++ [sanitize_filename file.name]) = true)
    ∧ (visitFormats env ctx file formats doc fs tr).2.2.1.existsP
        (metadataPath ctx file) = false := by
  induction formats with
  | nil =>
      intro doc fs tr _ _ _ _ _ hmeta
      refine ⟨rfl, FSle.rfl fs, by simp, by simp, hmeta⟩
  | cons fm rest ih =>
      intro doc fs tr hdf ho he hnd hfresh hmeta
      have hex : fs.existsP (export_filename ctx fm file) = false := hfresh fm (by simp)
      have ho2 : env.openOk doc.file.name doc.file.versionNumber = true := by rw [hdf]; exact ho
      obtain ⟨doc1, tr1, hopen⟩ := open_always_ok env doc tr ho2
      have hdf1 : doc1.file = file := by rw [open_ok_file hopen, hdf]
      have hstep := export_file_success env ctx fm file doc doc1 fs tr tr1 hex hopen (he fm)
      -- the filesystem after the head export
      set fs1 := (fs.mkdirParents (ctx.folder ++ [sanitize_filename file.name])).writeFile
          (export_filename ctx fm file) exportedContent with hfs1
      have hlen : ∀ q : FPath, q.length = ctx.folder.length + 2 → ctx.folder.length + 1 < q.length := by
        intro q hq
        omega
      -- freshness of the remaining formats is preserved by the head step
      have hfresh1 : ∀ g ∈ rest, fs1.existsP (export_filename ctx g file) = false := by
        intro g hg
        have hne : export_filename ctx g file ≠ export_filename ctx fm file := by
          apply export_filename_ne
          intro hgf
          rw [hgf] at hg
          exact (List.nodup_cons.1 hnd).1 hg
        rw [existsP_eq, hfs1, fileExists_writeFile_ne _ _ _ _ (Ne.symm hne)]
        have hdl : ((fs.mkdirParents (ctx.folder ++ [sanitize_filename file.name])).dirExists
            (export_filename ctx g file)) = fs.dirExists (export_filename ctx g file) := by
          apply dirExists_mkdirParents_long
          simp only [List.length_append, List.length_cons, List.length_nil]
          rw [export_filename_length]
          omega
        rw [dirExists_writeFile, hdl]
        have := hfresh g (by simp [hg])
        rw [existsP_eq] at this
        simpa using this
      -- the metadata path is still fresh after the head step
      have hmeta1 : fs1.existsP (metadataPath ctx file) = false := by
        rw [existsP_eq, hfs1,
          fileExists_writeFile_ne _ _ _ _ (Ne.symm (metadataPath_ne_export ctx file fm))]
        have hdl : ((fs.mkdirParents (ctx.folder ++ [sanitize_filename file.name])).dirExists
            (metadataPath ctx file)) = fs.dirExists (metadataPath ctx file) := by
          apply dirExists_mkdirParents_long
          simp only [List.length_append, List.length_cons, List.length_nil]
          rw [metadataPath_length]
          omega
        rw [dirExists_writeFile, hdl]
        rw [existsP_eq] at hmeta
        simpa using hmeta
      have hrest := ih doc1 fs1 tr1 hdf1 ho he (List.nodup_cons.1 hnd).2 hfresh1 hmeta1
      -- head facts on fs1
      have hhead : fs1.fileExists (export_filename ctx fm file) = true := by
        rw [hfs1]
        rw [fileExists_writeFile]
        simp
      have hdir1 : fs1.dirExists (ctx.folder ++ [sanitize_filename file.name]) = true := by
        rw [hfs1, dirExists_writeFile, dirExists_mkdirParents]
        have : (ctx.folder ++ [sanitize_filename file.name])
            ∈ pathPrefixes (ctx.folder ++ [sanitize_filename file.name]) :=
          self_mem_pathPrefixes (by simp)
        simp [this]
      have hle1 : FSle fs fs1 := by
        rw [hfs1]
        exact FSle.trans (FSle_mkdirParents ..) (FSle_writeFile ..)
      -- assemble
      simp only [visitFormats]
      rw [hstep]
      simp only []
      refine ⟨?_, ?_, ?_, ?_, ?_⟩
      · rw [hrest.1]
        simp only [List.length_cons]
        exact counter_saved_step rest.length
      · exact FSle.trans hle1 hrest.2.1
      · intro g hg
        rcases List.mem_cons.1 hg with rfl | hg2
        · exact (hrest.2.1).1 _ hhead
        · exact hrest.2.2.1 g hg2
      · intro _
        exact (hrest.2.1).2 _ hdir1
      · exact hrest.2.2.2.2


/-! ## Behaviour of export_metadata -/

theorem read_writeFile_self (fs : FS) (p : FPath) (c : String) :
    (fs.writeFile p c).read p = some c := by
  simp [FS.read, FS.writeFile, List.find?]

theorem fileExists_of_read {fs : FS} {p : FPath} {c : String}
    (h : fs.read p = some c) : fs.fileExists p = true := by
  simp [FS.fileExists, h]

/-- export_metadata touches no directory: its writes change only files. -/
theorem export_metadata_dirs (env : Env) (ctx : Ctx) (file : DataFile) (fs : FS) :
    (export_metadata env ctx file fs).2.dirs = fs.dirs := by
  unfold export_metadata
  dsimp only
  split
  · rfl
  · rename_i counter fs1 heq
    have hdirs : fs1.dirs = fs.dirs := by
      split at heq
      · cases heq
        rfl
      · split at heq
        · cases heq
          rfl
        · cases heq
    split
    · exact hdirs
    · split
      · exact hdirs
      · exact hdirs

/-- Ledger present and version line recorded: nothing happens. -/
theorem export_metadata_existing_line (env : Env) (ctx : Ctx) (file : DataFile) (fs : FS)
    (content : String) (hread : fs.read (metadataPath ctx file) = some content)
    (hline : ((splitLines content).map pyStrip).contains
      (versionLine file.versionNumber) = true) :
    export_metadata env ctx file fs = (.ok Counter.zero, fs) := by
  have hex : fs.existsP (metadataPath ctx file) = true := by
    rw [existsP_eq, fileExists_of_read hread]
    rfl
  simp only [metadataPath] at hex hread
  unfold export_metadata
  dsimp only
  rw [if_pos hex]
  dsimp only
  rw [hread]
  dsimp only
  rw [if_pos hline]

/-- Ledger present, version line absent: the block is appended and the
counter is still untouched. -/
theorem export_metadata_existing_noline (env : Env) (ctx : Ctx) (file : DataFile) (fs : FS)
    (content : String) (hread : fs.read (metadataPath ctx file) = some content)
    (hline : ((splitLines content).map pyStrip).contains
      (versionLine file.versionNumber) = false) :
    export_metadata env ctx file fs
      = (.ok Counter.zero,
         fs.writeFile (metadataPath ctx file) (content ++ metadataBlock env file)) := by
  have hex : fs.existsP (metadataPath ctx file) = true := by
    rw [existsP_eq, fileExists_of_read hread]
    rfl
  simp only [metadataPath] at hex hread ⊢
  unfold export_metadata
  dsimp only
  rw [if_pos hex]
  dsimp only
  rw [hread]
  dsimp only
  rw [if_neg (by rw [hline]; decide)]

/-- Ledger absent but the per-file directory exists: the ledger is created
(and the fresh version line appended), counted as one save. -/
theorem export_metadata_create (env : Env) (ctx : Ctx) (file : DataFile) (fs : FS)
    (hex : fs.existsP (metadataPath ctx file) = false)
    (hdir : fs.dirExists (ctx.folder ++ [sanitize_filename file.name]) = true) :
    ∃ fs2, export_metadata env ctx file fs = (.ok ⟨1, 0, 0⟩, fs2)
      ∧ fs2.fileExists (metadataPath ctx file) = true
      ∧ fs2.dirs = fs.dirs
      ∧ FSle fs fs2 := by
  have hdir2 : fs.dirExists ((metadataPath ctx file).dropLast) = true := by
    rw [metadataPath_dropLast]
    exact hdir
  have hself : ∀ c : String, (fs.writeFile (metadataPath ctx file) c).fileExists
      (metadataPath ctx file) = true := by
    intro c
    rw [fileExists_writeFile]
    simp
  simp only [metadataPath] at hex hdir2 hself
  unfold export_metadata
  dsimp only
  rw [if_neg (by rw [hex]; decide), if_pos hdir2]
  dsimp only
  rw [show (fs.writeFile (ctx.folder ++ [sanitize_filename file.name,
      sanitize_filename file.name ++ "_metadata.txt"]) ("")).read
      (ctx.folder ++ [sanitize_filename file.name,
      sanitize_filename file.name ++ "_metadata.txt"]) = some ("")
    from read_writeFile_self ..]
  dsimp only
  by_cases hline : ((splitLines ("")).map pyStrip).contains
      (versionLine file.versionNumber) = true
  · rw [if_pos hline]
    exact ⟨_, rfl, hself _, rfl, FSle_writeFile ..⟩
  · rw [if_neg hline]
    refine ⟨_, rfl, ?_, rfl, FSle.trans (FSle_writeFile ..) (FSle_writeFile ..)⟩
    have := hself (("" : String) ++ metadataBlock env file)
    rw [show (metadataPath ctx file) = ctx.folder ++ [sanitize_filename file.name,
        sanitize_filename file.name ++ "_metadata.txt"] from rfl]
    rw [fileExists_writeFile]
    simp

/-- Ledger absent and the per-file directory missing: creating the ledger
raises and the filesystem is untouched. -/
theorem export_metadata_no_parent (env : Env) (ctx : Ctx) (file : DataFile) (fs : FS)
    (hex : fs.existsP (metadataPath ctx file) = false)
    (hdir : fs.dirExists (ctx.folder ++ [sanitize_filename file.name]) = false) :
    export_metadata env ctx file fs = (.error (), fs) := by
  have hdir2 : fs.dirExists ((metadataPath ctx file).dropLast) = false := by
    rw [metadataPath_dropLast]
    exact hdir
  simp only [metadataPath] at hex hdir2
  unfold export_metadata
  dsimp only
  rw [if_neg (by rw [hex]; decide), if_neg (by rw [hdir2]; decide)]

/-- When the ledger is already a regular file, the step reports a zero
counter whatever the content holds. -/
theorem export_metadata_existing (env : Env) (ctx : Ctx) (file : DataFile) (fs : FS)
    (hfile : fs.fileExists (metadataPath ctx file) = true) :
    ∃ fs2, export_metadata env ctx file fs = (.ok Counter.zero, fs2) ∧ FSle fs fs2 := by
  rcases hr : fs.read (metadataPath ctx file) with _ | content
  · rw [FS.fileExists, hr] at hfile
    cases hfile
  · by_cases hline : ((splitLines content).map pyStrip).contains
        (versionLine file.versionNumber) = true
    · exact ⟨fs, export_metadata_existing_line env ctx file fs content hr hline, FSle.rfl fs⟩
    · rw [Bool.not_eq_true] at hline
      exact ⟨_, export_metadata_existing_noline env ctx file fs content hr hline,
        FSle_writeFile ..⟩

/-! ## Behaviour of visit_file -/

theorem closeInvoked_mem (d : LazyDocument) (tr : List Ev) :
    Ev.closeInvoked ∈ d.close tr := by
  cases hd : d.document <;> simp [LazyDocument.close, hd]

/-- The guarded tail of visit_file always returns ok and always invokes
close() on the handle before doing so. -/
theorem visitFileRest_closes (env : Env) (ctx : Ctx) (file : DataFile) (c0 : Counter)
    (doc : LazyDocument) (fs : FS) (tr : List Ev) :
    ∃ c fs1 tr1, visitFileRest env ctx file c0 doc fs tr = (.ok c, fs1, tr1)
      ∧ Ev.closeInvoked ∈ tr1 := by
  unfold visitFileRest
  rcases hf : visitFormats env ctx file ctx.formats doc fs tr with ⟨c1, doc1, fs1, tr1⟩
  dsimp only
  rcases hm : export_metadata env ctx file fs1 with ⟨r, fs2⟩
  cases r with
  | ok cm => exact ⟨_, _, _, rfl, closeInvoked_mem doc1 tr1⟩
  | error e => exact ⟨_, _, _, rfl, closeInvoked_mem doc1 tr1⟩

/-- First run of visit_file over a fresh filesystem with an all-succeeding
oracle: every format is saved, the ledger is created, and the outputs all
exist afterwards. -/
theorem visit_file_first (env : Env) (ctx : Ctx) (file : DataFile) (fs : FS)
    (hext : file.fileExtension = "f3d")
    (hsk : ctx.save_sketches = false)
    (ho : env.openOk file.name file.versionNumber = true)
    (he : ∀ fm, env.exportOk fm (export_filename ctx fm file) = true)
    (hne : ctx.formats ≠ [])
    (hnd : ctx.formats.Nodup)
    (hfresh : ∀ fm ∈ ctx.formats, fs.existsP (export_filename ctx fm file) = false)
    (hmeta : fs.existsP (metadataPath ctx file) = false) :
    ∃ fs1 tr1, visit_file env ctx file fs []
        = (.ok ⟨ctx.formats.length + 1, 0, 0⟩, fs1, tr1)
      ∧ (∀ fm ∈ ctx.formats, fs1.existsP (export_filename ctx fm file) = true)
      ∧ fs1.fileExists (metadataPath ctx file) = true := by
  have hformats := visitFormats_first env ctx file ctx.formats
    ⟨ctx, file, none⟩ fs [] rfl ho he hnd hfresh hmeta
  rcases hf : visitFormats env ctx file ctx.formats ⟨ctx, file, none⟩ fs []
    with ⟨c1, doc1, fsf, trf⟩
  rw [hf] at hformats
  obtain ⟨fs2, hm, hmfile, hmdirs, hmle⟩ := export_metadata_create env ctx file fsf
    hformats.2.2.2.2 (hformats.2.2.2.1 hne)
  refine ⟨fs2, doc1.close trf, ?_, ?_, hmfile⟩
  · unfold visit_file
    rw [if_neg (by rw [hext]; simp), if_neg (by rw [hsk]; simp)]
    unfold visitFileRest
    rw [hf]
    dsimp only
    rw [hm]
    dsimp only
    have h1 : c1 = ⟨ctx.formats.length, 0, 0⟩ := hformats.1
    rw [h1, counter_zero_add, counter_add_def]
    simp
  · intro fm hfm
    apply FSle.existsP hmle
    rw [existsP_eq, hformats.2.2.1 fm hfm]
    rfl

/-- Second run of visit_file when every output of the first run exists:
every format is skipped, nothing is saved and nothing errors. -/
theorem visit_file_second (env : Env) (ctx : Ctx) (file : DataFile) (fs : FS)
    (hext : file.fileExtension = "f3d")
    (hsk : ctx.save_sketches = false)
    (hall : ∀ fm ∈ ctx.formats, fs.existsP (export_filename ctx fm file) = true)
    (hledger : fs.fileExists (metadataPath ctx file) = true) :
    ∃ fs2 tr2, visit_file env ctx file fs []
      = (.ok ⟨0, ctx.formats.length, 0⟩, fs2, tr2) := by
  obtain ⟨fs2, hm, hmle⟩ := export_metadata_existing env ctx file fs hledger
  refine ⟨fs2, [Ev.closeInvoked], ?_⟩
  unfold visit_file
  rw [if_neg (by rw [hext]; simp), if_neg (by rw [hsk]; simp)]
  unfold visitFileRest
  rw [visitFormats_all_skip env ctx file ctx.formats ⟨ctx, file, none⟩ fs [] hall]
  dsimp only
  rw [hm]
  dsimp only
  rw [counter_zero_add, counter_add_zero]
  rfl

/-- Whenever the unguarded save_sketches phase cannot raise (flag off, or
the document opens), visit_file on an f3d file returns ok and invokes
close() on its handle before returning. -/
theorem visit_file_always_closes (env : Env) (ctx : Ctx) (file : DataFile) (fs : FS)
    (hext : file.fileExtension = "f3d")
    (h : ctx.save_sketches = false ∨ env.openOk file.name file.versionNumber = true) :
    ∃ c fs1 tr1, visit_file env ctx file fs [] = (.ok c, fs1, tr1)
      ∧ Ev.closeInvoked ∈ tr1 := by
  rcases h with hsk | ho
  · unfold visit_file
    rw [if_neg (by rw [hext]; simp), if_neg (by rw [hsk]; simp)]
    exact visitFileRest_closes env ctx file Counter.zero ⟨ctx, file, none⟩ fs []
  · by_cases hsk : ctx.save_sketches = true
    · unfold visit_file
      rw [if_neg (by rw [hext]; simp), if_pos hsk]
      have hopen := open_of_none_ok env ⟨ctx, file, none⟩ [] rfl ho
      rw [hopen]
      dsimp only
      rcases hs : export_sketches env
          (ctx.extend (sanitize_filename file.rootComponent.name)) file.rootComponent fs
        with ⟨c0, fs0⟩
      dsimp only
      exact visitFileRest_closes env ctx file c0 _ fs0 _
    · rw [Bool.not_eq_true] at hsk
      unfold visit_file
      rw [if_neg (by rw [hext]; simp), if_neg (by rw [hsk]; simp)]
      exact visitFileRest_closes env ctx file Counter.zero ⟨ctx, file, none⟩ fs []

/-! ## Properties of the sanitizer -/

theorem bad_ne_space {c : Char} (h : c ∈ badChars) : ¬ c = ' ' := by
  simp only [badChars, List.mem_cons, List.not_mem_nil, or_false] at h
  rcases h with rfl | rfl | rfl | rfl | rfl | rfl | rfl | rfl <;> decide

theorem map_replaceBad_eq_self {l : List Char} (h : ∀ c ∈ l, c ∉ badChars) :
    l.map replaceBad = l := by
  induction l with
  | nil => rfl
  | cons c r ih =>
      have hc : c ∉ badChars := h c (by simp)
      simp only [List.map_cons, replaceBad, if_neg hc]
      rw [ih (fun d hd => h d (by simp [hd]))]

theorem map_replaceBad_ne_self {l : List Char} (h : ∃ c ∈ l, c ∈ badChars) :
    l.map replaceBad ≠ l := by
  induction l with
  | nil => simp at h
  | cons c r ih =>
      intro he
      rw [List.map_cons] at he
      injection he with h1 h2
      rcases h with ⟨d, hd, hbad⟩
      rcases List.mem_cons.1 hd with rfl | hdr
      · rw [replaceBad, if_pos hbad] at h1
        exact bad_ne_space hbad h1.symm
      · exact ih ⟨d, hdr, hbad⟩ h2

theorem hexDigitChar_mem (n : Nat) : hexDigitChar n ∈ hexChars := by
  rcases Nat.lt_or_ge n 16 with h | h
  · interval_cases n <;> decide
  · have hd : hexChars.getD n '0' = '0' := by
      rw [List.getD_eq_default]
      simpa [hexChars] using h
    rw [hexDigitChar, hd]
    decide

theorem hexOfBytes_mem {c : Char} {l : List Nat} (h : c ∈ hexOfBytes l) : c ∈ hexChars := by
  induction l with
  | nil => simp [hexOfBytes] at h
  | cons b r ih =>
      simp only [hexOfBytes, List.mem_cons] at h
      rcases h with rfl | rfl | h
      · exact hexDigitChar_mem _
      · exact hexDigitChar_mem _
      · exact ih h

theorem hexOfBytes_length (l : List Nat) : (hexOfBytes l).length = 2 * l.length := by
  induction l with
  | nil => rfl
  | cons b r ih =>
      simp only [hexOfBytes, List.length_cons, ih]
      omega

theorem serializeHash_length (st : Hash8) : (serializeHash st).length = 32 := rfl

theorem sha256hex_data_length (s : String) : (sha256hex s).data.length = 64 := by
  show (hexOfBytes (sha256Bytes (strBytes s))).length = 64
  rw [hexOfBytes_length]
  unfold sha256Bytes
  rw [serializeHash_length]

/-! ## Claim theorems -/

/-- Claim C7: counter merge is a commutative monoid — merging with the
zero counter on either side is the identity, merge is commutative, and
merge is associative (all pointwise on saved, skipped and errored). -/
theorem claim7_counter_monoid (a b c : Counter) :
    a + Counter.zero = a
  ∧ Counter.zero + a = a
  ∧ a + b = b + a
  ∧ a + b + c = a + (b + c) := by
  refine ⟨counter_add_zero a, counter_zero_add a, ?_, ?_⟩
  · cases a
    cases b
    simp [counter_add_def, Nat.add_comm]
  · cases a
    cases b
    cases c
    simp [counter_add_def, Nat.add_assoc]

/-- Claim C8: a fresh run over project P, folder F, file Model (f3d,
version 1) with formats archive+STEP and all flags off saves the two
format outputs and the metadata ledger (whose content records Version 1),
returning saved=3, skipped=0, errored=0. -/
theorem claim8_scenario :
    run1.1 = .ok ⟨3, 0, 0⟩
  ∧ run1.2.1.fileExists ([("out" : String), ("P"), ("F"), ("Model"), ("Model_v1.f3d")]) = true
  ∧ run1.2.1.fileExists ([("out" : String), ("P"), ("F"), ("Model"), ("Model_v1.step")]) = true
  ∧ run1.2.1.fileExists ([("out" : String), ("P"), ("F"), ("Model"), ("Model_metadata.txt")]) = true
  ∧ ((splitLines ((run1.2.1.read ([("out" : String), ("P"), ("F"), ("Model"),
        ("Model_metadata.txt")])).getD (""))).map pyStrip).contains (versionLine 1) = true := by
  decide

/-- Claim C9 counterexample: after open() succeeds, each close() call
requests the external capability to close the document again — two
consecutive close() calls on the same opened handle produce two capClose
requests, because the handle never clears its document reference. -/
theorem claim9_counterexample :
    (LazyDocument.open envOk ⟨ctx0, fileModel, none⟩ []).1
      = .ok ⟨ctx0, fileModel, some ()⟩
  ∧ ((⟨ctx0, fileModel, some ()⟩ : LazyDocument).close []).count Ev.capClose = 1
  ∧ ((⟨ctx0, fileModel, some ()⟩ : LazyDocument).close
      ((⟨ctx0, fileModel, some ()⟩ : LazyDocument).close [])).count Ev.capClose = 2 := by
  refine ⟨rfl, by decide, by decide⟩

/-- Claim C9 amended: close() on a never-opened handle is a no-op (no
capability request), but close() is NOT idempotent after open(): the
handle keeps its document reference, so every further close() re-requests
the external close. -/
theorem claim9_amended (ctx : Ctx) (file : DataFile) (tr : List Ev) :
    (LazyDocument.mk ctx file none).close tr = tr ++ [Ev.closeInvoked]
  ∧ (LazyDocument.mk ctx file (some ())).close
      ((LazyDocument.mk ctx file (some ())).close tr)
      = tr ++ [Ev.closeInvoked, Ev.capClose, Ev.closeInvoked, Ev.capClose] := by
  constructor
  · rfl
  · show (tr ++ [Ev.closeInvoked, Ev.capClose]) ++ [Ev.closeInvoked, Ev.capClose] = _
    simp

/-- Claim C1 counterexample: with save_sketches enabled and a document
whose open raises, visit_file on an f3d file propagates the exception and
returns without ever invoking close() on the handle it constructed. -/
theorem claim1_counterexample :
    visit_file envBadOpen ctxSk fileModel fsEmpty []
      = (.error (), fsEmpty, [Ev.capOpen (("Model" : String))])
  ∧ Ev.closeInvoked ∉ [Ev.capOpen (("Model" : String))] := by
  refine ⟨rfl, by decide⟩

/-- Claim C2 counterexample: an exception escaping a sub-folder recursion
(here: the catalog raising while enumerating the files of sub-folder B)
aborts the parent folder traversal before the healthy sibling G is
visited, and aborts the whole run. -/
theorem claim2_counterexample :
    visit_folder envOk ctx0 folderCex fsEmpty [] = (.error (), fsEmpty, [])
  ∧ (AVE.main envOk ctx0 [⟨("P"), folderCex⟩] fsEmpty []).1 = .error () := by
  refine ⟨rfl, rfl⟩

/-- Claim C2 amended: an exception raised while visiting one FILE is
caught at that level, converted to errored(1), and never prevents sibling
files from continuing — a single-level folder therefore always returns ok
— but an exception escaping a sub-folder recursion propagates (see the
counterexample).  Concretely, in a folder of three files whose middle
file fails to open, the two siblings still export (4 saves) and the
failure is counted once. -/
theorem claim2_amended :
    (∀ (env : Env) (ctx : Ctx) (nm : String) (files : List DataFile) (fs : FS) (tr : List Ev),
      ∃ c, (visit_folder env ctx (DataFolder.mk nm true files []) fs tr).1 = .ok c)
  ∧ (visit_folder envSel ctxSk folder3 fsEmpty []).1 = .ok ⟨4, 0, 1⟩
  ∧ (visit_folder envSel ctxSk folder3 fsEmpty []).2.1.fileExists
      ([("out" : String), ("F"), ("Alpha"), ("Alpha_v1.f3d")]) = true
  ∧ (visit_folder envSel ctxSk folder3 fsEmpty []).2.1.fileExists
      ([("out" : String), ("F"), ("Gamma"), ("Gamma_v1.f3d")]) = true := by
  refine ⟨?_, by decide, by decide, by decide⟩
  intro env ctx nm files fs tr
  unfold visit_folder
  rw [if_pos rfl]
  rcases hf : visitFiles env (ctx.extend (sanitize_filename nm)) files fs tr
    with ⟨c1, fs1, tr1⟩
  dsimp only
  exact ⟨c1 + Counter.zero, rfl⟩

/-- Claim C1 amended: visit_file closes its handle before returning on
every exit path of the guarded format/metadata phase — that is, whenever
save_sketches is off or the document opens successfully — but an
exception raised while opening the document for the unguarded
save_sketches phase escapes before close() is invoked (see the
counterexample). -/
theorem claim1_amended (env : Env) (ctx : Ctx) (file : DataFile) (fs : FS)
    (hext : file.fileExtension = "f3d")
    (h : ctx.save_sketches = false ∨ env.openOk file.name file.versionNumber = true) :
    ∃ c fs1 tr1, visit_file env ctx file fs [] = (.ok c, fs1, tr1)
      ∧ Ev.closeInvoked ∈ tr1 :=
  visit_file_always_closes env ctx file fs hext h

/-- Claim C1 amended, witness at the two-format scenario with sketches
enabled and an all-succeeding oracle. -/
theorem claim1_amended_witness :
    fileModel.fileExtension = "f3d"
  ∧ ∃ c fs1 tr1, visit_file envOk ctxSk fileModel fsEmpty [] = (.ok c, fs1, tr1)
      ∧ Ev.closeInvoked ∈ tr1 :=
  ⟨rfl, claim1_amended envOk ctxSk fileModel fsEmpty rfl (Or.inr rfl)⟩

/-- Claim C3: export_file skips without touching anything (and without
opening the handle) when the output path exists; when it does not, it
opens the handle, creates the parent directories, executes the export and
returns saved(1); exceptions from the open or from the export manager
propagate to the caller uncaught, with the side effects performed so far
kept. -/
theorem claim3_export_file (env : Env) (ctx : Ctx) (format : Format) (file : DataFile)
    (doc : LazyDocument) (fs : FS) (tr : List Ev) :
    (fs.existsP (export_filename ctx format file) = true →
      export_file env ctx format file doc fs tr = (.ok ⟨0, 1, 0⟩, doc, fs, tr))
  ∧ (∀ tr1, fs.existsP (export_filename ctx format file) = false →
      doc.open env tr = (.error (), tr1) →
      export_file env ctx format file doc fs tr = (.error (), doc, fs, tr1))
  ∧ (∀ doc1 tr1, fs.existsP (export_filename ctx format file) = false →
      doc.open env tr = (.ok doc1, tr1) →
      env.exportOk format (export_filename ctx format file) = true →
      export_file env ctx format file doc fs tr
        = (.ok ⟨1, 0, 0⟩, doc1,
           (fs.mkdirParents (ctx.folder ++ [sanitize_filename file.name])).writeFile
             (export_filename ctx format file) exportedContent, tr1))
  ∧ (∀ doc1 tr1, fs.existsP (export_filename ctx format file) = false →
      doc.open env tr = (.ok doc1, tr1) →
      env.exportOk format (export_filename ctx format file) = false →
      export_file env ctx format file doc fs tr
        = (.error (), doc1,
           fs.mkdirParents (ctx.folder ++ [sanitize_filename file.name]), tr1)) :=
  ⟨export_file_skip env ctx format file doc fs tr,
   fun tr1 h1 h2 => export_file_open_raise env ctx format file doc fs tr tr1 h1 h2,
   fun doc1 tr1 h1 h2 h3 => export_file_success env ctx format file doc doc1 fs tr tr1 h1 h2 h3,
   fun doc1 tr1 h1 h2 h3 => export_file_export_raise env ctx format file doc doc1 fs tr tr1 h1 h2 h3⟩

/-- Claim C3 witness: the skip branch on a filesystem already holding the
output, the open-raise branch, and the successful export branch, each at
a concrete input. -/
theorem claim3_witness :
    ((fsEmpty.writeFile (export_filename ctx0 Format.F3D fileModel) ("")).existsP
        (export_filename ctx0 Format.F3D fileModel) = true
      ∧ export_file envOk ctx0 Format.F3D fileModel ⟨ctx0, fileModel, none⟩
          (fsEmpty.writeFile (export_filename ctx0 Format.F3D fileModel) ("")) []
        = (.ok ⟨0, 1, 0⟩, ⟨ctx0, fileModel, none⟩,
           fsEmpty.writeFile (export_filename ctx0 Format.F3D fileModel) (""), []))
  ∧ (fsEmpty.existsP (export_filename ctx0 Format.F3D fileModel) = false
      ∧ export_file envBadOpen ctx0 Format.F3D fileModel ⟨ctx0, fileModel, none⟩ fsEmpty []
        = (.error (), ⟨ctx0, fileModel, none⟩, fsEmpty, [Ev.capOpen (("Model" : String))]))
  ∧ export_file envOk ctx0 Format.F3D fileModel ⟨ctx0, fileModel, none⟩ fsEmpty []
      = (.ok ⟨1, 0, 0⟩, ⟨ctx0, fileModel, some ()⟩,
         (fsEmpty.mkdirParents (ctx0.folder ++ [sanitize_filename fileModel.name])).writeFile
           (export_filename ctx0 Format.F3D fileModel) exportedContent,
         [Ev.capOpen (("Model" : String))]) :=
  ⟨⟨by decide,
    (claim3_export_file envOk ctx0 Format.F3D fileModel ⟨ctx0, fileModel, none⟩
      (fsEmpty.writeFile (export_filename ctx0 Format.F3D fileModel) ("")) []).1 (by decide)⟩,
   ⟨by decide,
    (claim3_export_file envBadOpen ctx0 Format.F3D fileModel ⟨ctx0, fileModel, none⟩
      fsEmpty []).2.1 [Ev.capOpen (("Model" : String))] (by decide) rfl⟩,
   (claim3_export_file envOk ctx0 Format.F3D fileModel ⟨ctx0, fileModel, none⟩
      fsEmpty []).2.2.1 ⟨ctx0, fileModel, some ()⟩ [Ev.capOpen (("Model" : String))]
      (by decide) rfl rfl⟩

/-- Claim C4 counterexample: repeating the two-format scenario with
identical inputs yields saved=0, skipped=2, errored=0 on the second run —
not skipped=3 as claimed: the metadata step returns the counter unchanged
when the ledger already exists, contributing no skip. -/
theorem claim4_counterexample :
    run2.1 = .ok ⟨0, 2, 0⟩ ∧ ((⟨0, 2, 0⟩ : Counter) : Counter).skipped ≠ 3 := by
  refine ⟨by decide, by decide⟩

/-- Claim C4 amended: after a fresh first run in which every item
succeeded (formats.length exports plus the ledger creation), a second run
of visit_file over the filesystem the first run left behind yields
saved=0, errored=0 and skipped = formats.length — the format exports are
all skipped, while the metadata step returns an unchanged (zero) counter
rather than a skip; concretely the second run of the two-format scenario
returns saved=0, skipped=2, errored=0. -/
theorem claim4_amended (env : Env) (ctx : Ctx) (file : DataFile) (fs : FS)
    (hext : file.fileExtension = "f3d")
    (hsk : ctx.save_sketches = false)
    (ho : env.openOk file.name file.versionNumber = true)
    (he : ∀ fm, env.exportOk fm (export_filename ctx fm file) = true)
    (hne : ctx.formats ≠ [])
    (hnd : ctx.formats.Nodup)
    (hfresh : ∀ fm ∈ ctx.formats, fs.existsP (export_filename ctx fm file) = false)
    (hmeta : fs.existsP (metadataPath ctx file) = false) :
    (∃ fs1 tr1 fs2 tr2,
      visit_file env ctx file fs [] = (.ok ⟨ctx.formats.length + 1, 0, 0⟩, fs1, tr1)
      ∧ visit_file env ctx file fs1 [] = (.ok ⟨0, ctx.formats.length, 0⟩, fs2, tr2))
  ∧ run2.1 = .ok ⟨0, 2, 0⟩ := by
  constructor
  · obtain ⟨fs1, tr1, h1, hall, hledger⟩ :=
      visit_file_first env ctx file fs hext hsk ho he hne hnd hfresh hmeta
    obtain ⟨fs2, tr2, h2⟩ := visit_file_second env ctx file fs1 hext hsk hall hledger
    exact ⟨fs1, tr1, fs2, tr2, h1, h2⟩
  · decide

/-- Claim C4 amended, witness at the two-format scenario file. -/
theorem claim4_amended_witness :
    fileModel.fileExtension = "f3d"
  ∧ ctx0.formats.Nodup
  ∧ ((∃ fs1 tr1 fs2 tr2,
      visit_file envOk ctx0 fileModel fsEmpty []
        = (.ok ⟨ctx0.formats.length + 1, 0, 0⟩, fs1, tr1)
      ∧ visit_file envOk ctx0 fileModel fs1 []
        = (.ok ⟨0, ctx0.formats.length, 0⟩, fs2, tr2))
    ∧ run2.1 = .ok ⟨0, 2, 0⟩) :=
  ⟨rfl, by decide,
   claim4_amended envOk ctx0 fileModel fsEmpty rfl rfl rfl
     (fun fm => by cases fm <;> rfl) (by decide) (by decide) (by decide) (by decide)⟩

/-- Claim C5: the sanitizer is deterministic and total; with no forbidden
character the input is returned unchanged; with a forbidden character
present, every forbidden character is replaced by a space and the result
is the replaced string followed by an underscore and the first 8
(lowercase hex) characters of the SHA-256 of the original input, so the
output always differs from the input. -/
theorem claim5_sanitize (x : String) :
    sanitize_filename x = sanitize_filename x
  ∧ ((∀ c ∈ x.data, c ∉ badChars) → sanitize_filename x = x)
  ∧ ((∃ c ∈ x.data, c ∈ badChars) →
      sanitize_filename x ≠ x
    ∧ sanitize_filename x
        = String.mk (x.data.map replaceBad) ++ "_"
            ++ String.mk ((sha256hex x).data.take 8)
    ∧ ((sha256hex x).data.take 8).length = 8
    ∧ (∀ c ∈ (sha256hex x).data.take 8, c ∈ hexChars)) := by
  obtain ⟨l⟩ := x
  refine ⟨rfl, ?_, ?_⟩
  · intro h
    unfold sanitize_filename
    dsimp only
    rw [map_replaceBad_eq_self h, if_pos rfl]
  · intro h
    rw [show (String.mk l).data = l from rfl] at h
    have hne : l.map replaceBad ≠ l := map_replaceBad_ne_self h
    have hcond : ¬ (String.mk l = String.mk (l.map replaceBad)) := by
      intro he
      exact hne (congrArg String.data he).symm
    have hres : sanitize_filename (String.mk l)
        = String.mk (l.map replaceBad) ++ "_"
            ++ String.mk ((sha256hex (String.mk l)).data.take 8) := by
      unfold sanitize_filename
      dsimp only
      rw [if_neg hcond]
    have hlen8 : ((sha256hex (String.mk l)).data.take 8).length = 8 := by
      rw [List.length_take, sha256hex_data_length]
      decide
    refine ⟨?_, hres, hlen8, ?_⟩
    · intro he
      rw [hres] at he
      have hlen := congrArg (fun s : String => s.data.length) he
      simp only [String.data_append, List.length_append,
        show (String.mk (l.map replaceBad)).data = l.map replaceBad from rfl,
        show (String.mk ((sha256hex (String.mk l)).data.take 8)).data
          = (sha256hex (String.mk l)).data.take 8 from rfl,
        show (String.mk l).data = l from rfl,
        List.length_map, hlen8] at hlen
      have : ("_" : String).data.length = 1 := rfl
      omega
    · intro c hc
      exact hexOfBytes_mem (List.take_subset _ _ hc)

/-- Claim C5 witness: a name with a forbidden slash is changed and gains
the hex suffix; a clean name passes through unchanged. -/
theorem claim5_witness :
    ((∀ c ∈ ("Model" : String).data, c ∉ badChars)
      ∧ sanitize_filename ("Model") = ("Model"))
  ∧ ((∃ c ∈ ("a/b" : String).data, c ∈ badChars)
      ∧ sanitize_filename ("a/b") ≠ ("a/b")
      ∧ ((sha256hex ("a/b")).data.take 8).length = 8) :=
  ⟨⟨by decide, (claim5_sanitize ("Model")).2.1 (by decide)⟩,
   ⟨by decide, ((claim5_sanitize ("a/b")).2.2 (by decide)).1,
    ((claim5_sanitize ("a/b")).2.2 (by decide)).2.2.1⟩⟩

/-- Claim C6: the metadata ledger step returns saved(1) exactly when the
ledger file did not exist before the call (creation); on an existing
ledger whose lines, stripped of whitespace, already record this version,
nothing is appended and the counter comes back unchanged (zero); on an
existing ledger without the line, the version block is appended and the
returned counter is still zero. -/
theorem claim6_metadata (env : Env) (ctx : Ctx) (file : DataFile) (fs : FS) :
    (∀ content, fs.read (metadataPath ctx file) = some content →
      ((splitLines content).map pyStrip).contains (versionLine file.versionNumber) = true →
      export_metadata env ctx file fs = (.ok Counter.zero, fs))
  ∧ (∀ content, fs.read (metadataPath ctx file) = some content →
      ((splitLines content).map pyStrip).contains (versionLine file.versionNumber) = false →
      export_metadata env ctx file fs
        = (.ok Counter.zero,
           fs.writeFile (metadataPath ctx file) (content ++ metadataBlock env file)))
  ∧ (fs.existsP (metadataPath ctx file) = false →
      fs.dirExists (ctx.folder ++ [sanitize_filename file.name]) = true →
      ∃ fs2, export_metadata env ctx file fs = (.ok ⟨1, 0, 0⟩, fs2)
        ∧ fs2.fileExists (metadataPath ctx file) = true) := by
  refine ⟨fun content h1 h2 => export_metadata_existing_line env ctx file fs content h1 h2,
    fun content h1 h2 => export_metadata_existing_noline env ctx file fs content h1 h2,
    fun h1 h2 => ?_⟩
  obtain ⟨fs2, hm, hfile, _, _⟩ := export_metadata_create env ctx file fs h1 h2
  exact ⟨fs2, hm, hfile⟩

/-- Claim C6 witness: a ledger recording version 1 is left alone with a
zero counter; the same ledger queried for version 2 is appended to, with
the counter still zero; a missing ledger whose directory exists is
created and counted saved(1). -/
theorem claim6_witness :
    ((fsEmpty.writeFile (metadataPath ctx0 fileModel) ("Version: 1\n")).read
        (metadataPath ctx0 fileModel) = some ("Version: 1\n")
      ∧ export_metadata envOk ctx0 fileModel
          (fsEmpty.writeFile (metadataPath ctx0 fileModel) ("Version: 1\n"))
        = (.ok Counter.zero, fsEmpty.writeFile (metadataPath ctx0 fileModel) ("Version: 1\n")))
  ∧ export_metadata envOk ctx0
      (DataFile.mk ("Model") 2 ("f3d") 0 ("second") rootC [])
      (fsEmpty.writeFile (metadataPath ctx0 fileModel) ("Version: 1\n"))
      = (.ok Counter.zero,
         (fsEmpty.writeFile (metadataPath ctx0 fileModel) ("Version: 1\n")).writeFile
           (metadataPath ctx0 (DataFile.mk ("Model") 2 ("f3d") 0 ("second") rootC []))
           (("Version: 1\n") ++ metadataBlock envOk
             (DataFile.mk ("Model") 2 ("f3d") 0 ("second") rootC [])))
  ∧ ∃ fs2, export_metadata envOk ctx0 fileModel (FS.mk [] [[("out"), ("Model")]])
      = (.ok ⟨1, 0, 0⟩, fs2)
      ∧ fs2.fileExists (metadataPath ctx0 fileModel) = true :=
  ⟨⟨by decide,
    (claim6_metadata envOk ctx0 fileModel
      (fsEmpty.writeFile (metadataPath ctx0 fileModel) ("Version: 1\n"))).1
      ("Version: 1\n") (by decide) (by decide)⟩,
   (claim6_metadata envOk ctx0 (DataFile.mk ("Model") 2 ("f3d") 0 ("second") rootC [])
      (fsEmpty.writeFile (metadataPath ctx0 fileModel) ("Version: 1\n"))).2.1
      ("Version: 1\n") (by decide) (by decide),
   (claim6_metadata envOk ctx0 fileModel (FS.mk [] [[("out"), ("Model")]])).2.2
      (by decide) (by decide)⟩

/-- Claim C10: export_metadata never creates directories; when the ledger
is absent and its parent directory is missing, creating the ledger raises
with the filesystem untouched; the caller visit_file (here with an empty
formats list and sketches off, so nothing else created the directory)
catches this as errored(1), producing no ledger. -/
theorem claim10_metadata_nodirs (env : Env) (ctx : Ctx) (file : DataFile) (fs : FS) :
    ((export_metadata env ctx file fs).2.dirs = fs.dirs)
  ∧ (fs.existsP (metadataPath ctx file) = false →
      fs.dirExists (ctx.folder ++ [sanitize_filename file.name]) = false →
      export_metadata env ctx file fs = (.error (), fs))
  ∧ (file.fileExtension = "f3d" → ctx.save_sketches = false → ctx.formats = [] →
      fs.existsP (metadataPath ctx file) = false →
      fs.dirExists (ctx.folder ++ [sanitize_filename file.name]) = false →
      visit_file env ctx file fs [] = (.ok ⟨0, 0, 1⟩, fs, [Ev.closeInvoked])) := by
  refine ⟨export_metadata_dirs env ctx file fs,
    fun h1 h2 => export_metadata_no_parent env ctx file fs h1 h2, ?_⟩
  intro hext hsk hfmt hex hdir
  unfold visit_file
  rw [if_neg (by rw [hext]; simp), if_neg (by rw [hsk]; simp)]
  unfold visitFileRest
  rw [hfmt]
  dsimp only [visitFormats]
  rw [export_metadata_no_parent env ctx file fs hex hdir]
  dsimp only
  rw [counter_zero_add, counter_zero_add]
  rfl

/-- Claim C10 witness: a fresh f3d file visited with an empty formats
list and sketches off errors on the metadata step and leaves the
filesystem untouched. -/
theorem claim10_witness :
    fsEmpty.existsP (metadataPath ctxNoFmt fileModel) = false
  ∧ fsEmpty.dirExists (ctxNoFmt.folder ++ [sanitize_filename fileModel.name]) = false
  ∧ export_metadata envOk ctxNoFmt fileModel fsEmpty = (.error (), fsEmpty)
  ∧ visit_file envOk ctxNoFmt fileModel fsEmpty []
      = (.ok ⟨0, 0, 1⟩, fsEmpty, [Ev.closeInvoked]) :=
  ⟨by decide, by decide,
   (claim10_metadata_nodirs envOk ctxNoFmt fileModel fsEmpty).2.1 (by decide) (by decide),
   (claim10_metadata_nodirs envOk ctxNoFmt fileModel fsEmpty).2.2
     rfl rfl rfl (by decide) (by decide)⟩
